import Mathlib

/-!
Shallow embedding of the optics-light metrics library core
(registry, epoch manager, metric cells, poller) together with
theorems settling the specification claims C1..C10.

Conventions:
* C `double` values are modelled as exact rationals (`ℚ`); the operations in
  scope (compare, add, multiply by small constants, copy) are exact on the
  inputs the claims quantify over.
* C `size_t`/`uint64_t` counters are modelled as `ℕ`, `int64_t` as `ℤ`.
* Two-slot (double-buffered) per-epoch data is a pair, indexed by the epoch
  counter modulo 2.
* Fallible operations return `Option`/`Bool` results.
-/

namespace Optics

/-- Two per-epoch slots of a double-buffered cell body (`...epochs[2]` /
`...[2]` arrays in the C source), indexed by an epoch value modulo 2. -/
abbrev Slots (α : Type) : Type := α × α

namespace Slots

/-- Read the slot selected by epoch `e` (C `x[epoch]` with `epoch ∈ {0,1}`). -/
def get {α : Type} (s : Slots α) (e : ℕ) : α :=
  if e % 2 = 0 then s.1 else s.2

/-- Write the slot selected by epoch `e`. -/
def set {α : Type} (s : Slots α) (e : ℕ) (v : α) : Slots α :=
  if e % 2 = 0 then (v, s.2) else (s.1, v)

/-- Both slots initialised to the same value. -/
def init {α : Type} (v : α) : Slots α := (v, v)

theorem get_set_same {α : Type} (s : Slots α) (e : ℕ) (v : α) :
    (s.set e v).get e = v := by
  unfold get set
  by_cases h : e % 2 = 0 <;> simp [h]

theorem get_set_other {α : Type} (s : Slots α) (e e' : ℕ) (v : α)
    (h : e % 2 ≠ e' % 2) : (s.set e v).get e' = s.get e' := by
  unfold get set
  by_cases h0 : e % 2 = 0 <;> by_cases h1 : e' % 2 = 0 <;> simp_all

end Slots

/-! ## Distribution cell (`lens_dist.c`, appended to `src/src/optics.c`)

The reservoir has capacity `optics_dist_samples = 200`.  Each epoch slot is a
`struct lens_dist_epoch { slock lock; size_t n; double max; double samples[200]; }`.
The lock only matters under concurrency and is not part of the sequential
state; `lens_dist_read`'s `busy` path is modelled separately by its caller. -/

/-- `optics_dist_samples` from `optics.h`. -/
def optics_dist_samples : ℕ := 200

/-- One epoch slot of a distribution cell (`struct lens_dist_epoch`). -/
structure LensDistEpoch where
  n : ℕ
  max : ℚ
  samples : List ℚ
  deriving Repr, DecidableEq

/-- A fresh (zeroed) distribution epoch slot: `calloc`-style zero state. -/
def LensDistEpoch.empty : LensDistEpoch :=
  { n := 0, max := 0, samples := List.replicate optics_dist_samples 0 }

/-- `struct optics_dist` from `optics.h`: the out-value of a dist read. -/
structure OpticsDist where
  n : ℕ
  p50 : ℚ
  p90 : ℚ
  p99 : ℚ
  max : ℚ
  samples : List ℚ
  deriving Repr, DecidableEq

/-- A zero-initialised `struct optics_dist` (as built by the poller's
`struct optics_poll poll = { ... }` designated initialiser). -/
def OpticsDist.zero : OpticsDist :=
  { n := 0, p50 := 0, p90 := 0, p99 := 0, max := 0,
    samples := List.replicate optics_dist_samples 0 }

/-- `lens_dist_record`: reservoir-sampling insert.  `rng n` models
`rng_gen_range(rng_global(), 0, n)` and is consulted only when the reservoir
is full (`n ≥ 200`), exactly as in the source. -/
def lens_dist_record (rng : ℕ → ℕ) (dist : LensDistEpoch) (value : ℚ) :
    LensDistEpoch :=
  let i := if dist.n ≥ optics_dist_samples then rng dist.n else dist.n
  let samples :=
    if i < optics_dist_samples then dist.samples.set i value else dist.samples
  { n := dist.n + 1
    max := if value > dist.max then value else dist.max
    samples := samples }

/-- `lens_dist_p`: index of the percentile element in the sorted prefix,
`(n * percentile) / 100` in truncating `size_t` arithmetic. -/
def lens_dist_p (percentile n : ℕ) : ℕ := (n * percentile) / 100

/-- `lens_dist_reservoir_len`: number of valid samples, `min(len, 200)`. -/
def lens_dist_reservoir_len (len : ℕ) : ℕ :=
  if len > optics_dist_samples then optics_dist_samples else len

/-- Insert into an ascending list (helper for the sort model). -/
def insertSorted (x : ℚ) : List ℚ → List ℚ
  | [] => [x]
  | y :: ys => if x ≤ y then x :: y :: ys else y :: insertSorted x ys

/-- Ascending insertion sort (kernel-computable sort model). -/
def sortAsc (xs : List ℚ) : List ℚ := xs.foldr insertSorted []

/-- Ascending sort of the first `len` entries, leaving the tail in place:
the effect of `qsort(value->samples, len, sizeof(double), lens_dist_value_cmp)`.
(The C comparator subtracts doubles and truncates to `int`; on the
integer-valued samples of the claims it computes the exact ordering.) -/
def sortPrefix (len : ℕ) (xs : List ℚ) : List ℚ :=
  sortAsc (xs.take len) ++ xs.drop len

/-- `lens_dist_read` (lenses' read-and-reset; the `optics_ok` path):
copies `n`, folds in `max`, copies the valid prefix of the reservoir, zeroes
the slot, then sorts the copied prefix and extracts the percentiles.
Returns the filled out-value and the reset slot. -/
def lens_dist_read (dist : LensDistEpoch) (value : OpticsDist) :
    OpticsDist × LensDistEpoch :=
  let v : OpticsDist :=
    { value with
      n := dist.n
      max := if value.max < dist.max then dist.max else value.max }
  let to_copy := lens_dist_reservoir_len v.n
  let v : OpticsDist :=
    { v with samples := dist.samples.take to_copy ++ v.samples.drop to_copy }
  let dist' : LensDistEpoch := { dist with max := 0, n := 0 }
  if v.n = 0 then (v, dist')
  else
    let len := if v.n ≤ optics_dist_samples then v.n else optics_dist_samples
    let sorted := sortPrefix len v.samples
    let v : OpticsDist :=
      { v with
        samples := sorted
        p50 := sorted.getD (lens_dist_p 50 len) 0
        p90 := sorted.getD (lens_dist_p 90 len) 0
        p99 := sorted.getD (lens_dist_p 99 len) 0 }
    (v, dist')

/-- Recording the integers `1..100` once each into a fresh dist slot
(the scenario of claim C1; the rng is never consulted since `n < 200`). -/
def distScenarioSlot : LensDistEpoch :=
  (List.range 100).foldl
    (fun d k => lens_dist_record (fun _ => 0) d (k + 1 : ℕ)) LensDistEpoch.empty

/-- The read result of the C1 scenario. -/
def distScenarioResult : OpticsDist :=
  (lens_dist_read distScenarioSlot OpticsDist.zero).1

/-! ## Quantile cell (`lens_quantile.c`, appended to `src/src/optics.c`)

`struct lens_quantile` holds the target quantile, the base estimate, the
adjustment step and a shared signed multiplier, plus two per-epoch sample
counters.  `calculate_quantile` computes

    size_t adjustment = multiplier * adjustment_value;
    return original_estimate + adjustment;

i.e. the `double` product is converted through a `size_t` local before being
added back to the base estimate. -/

/-- C conversion of a `double` to `size_t`: truncation toward zero when the
truncated value is representable (`-1 < x < 2^64`), undefined behaviour
(modelled as `none`) otherwise. -/
def doubleToSizeT (x : ℚ) : Option ℕ :=
  if -1 < x ∧ x < 2 ^ 64 then some ⌊x⌋.toNat else none

/-- `struct lens_quantile`. -/
structure LensQuantile where
  target_quantile : ℚ
  original_estimate : ℚ
  adjustment_value : ℚ
  multiplier : ℤ
  count : Slots ℕ
  deriving Repr, DecidableEq

/-- `lens_quantile_alloc`'s initialisation of the cell body (counters and the
multiplier start zeroed). -/
def LensQuantile.alloc (target estimate adjustment : ℚ) : LensQuantile :=
  { target_quantile := target, original_estimate := estimate,
    adjustment_value := adjustment, multiplier := 0, count := Slots.init 0 }

/-- `calculate_quantile`: `original_estimate + (size_t)(multiplier *
adjustment_value)`; `none` when the `size_t` conversion is undefined. -/
def calculate_quantile (quantile : LensQuantile) : Option ℚ :=
  (doubleToSizeT ((quantile.multiplier : ℚ) * quantile.adjustment_value)).map
    (fun adjustment => quantile.original_estimate + (adjustment : ℚ))

/-- `lens_quantile_update`: frank-wolfe style step.  `probability_check`
models the Bernoulli draw `rng_gen_prob(rng_global(), target_quantile)`.
Returns `none` when `calculate_quantile` is undefined. -/
def lens_quantile_update (quantile : LensQuantile) (epoch : ℕ) (value : ℚ)
    (probability_check : Bool) : Option LensQuantile :=
  (calculate_quantile quantile).map fun current_estimate =>
    let multiplier :=
      if value < current_estimate then
        if !probability_check then quantile.multiplier - 1 else quantile.multiplier
      else
        if probability_check then quantile.multiplier + 1 else quantile.multiplier
    { quantile with
      multiplier := multiplier
      count := quantile.count.set epoch (quantile.count.get epoch + 1) }

/-- `struct optics_quantile`: the out-value of a quantile read. -/
structure OpticsQuantile where
  quantile : ℚ
  sample : ℚ
  count : ℕ
  deriving Repr, DecidableEq

/-- `lens_quantile_read`: reports the target quantile, the current estimate
and the exchanged (reset) per-epoch count.  `none` models the undefined
`size_t` conversion inside `calculate_quantile`. -/
def lens_quantile_read (quantile : LensQuantile) (epoch : ℕ) :
    Option (OpticsQuantile × LensQuantile) :=
  (calculate_quantile quantile).map fun sample =>
    ({ quantile := quantile.target_quantile
       sample := sample
       count := quantile.count.get epoch },
     { quantile with count := quantile.count.set epoch 0 })

/-! ## Counter, gauge and histogram cells

`lens_counter.c`, `lens_gauge.c` and `lens_histo.c` are referenced by
`lens.c`'s `#include` list but their sources are not part of this snapshot;
they are modelled below. -/

/-- Modelled from the spec: `lens_counter.c` is missing from the snapshot.
Counter body: two 64-bit signed atomic accumulators indexed by epoch;
`record(Δ)` is `fetch_add(slot[current_epoch], Δ, relaxed)`. -/
def lens_counter_inc (counter : Slots ℤ) (epoch : ℕ) (value : ℤ) : Slots ℤ :=
  counter.set epoch (counter.get epoch + value)

/-- Modelled from the spec: `lens_counter.c` is missing from the snapshot.
`read(e)` is `exchange(slot[e], 0, relaxed)`: returns the windowed count and
resets the slot. -/
def lens_counter_read (counter : Slots ℤ) (epoch : ℕ) : ℤ × Slots ℤ :=
  (counter.get epoch, counter.set epoch 0)

/-- Modelled from the spec and the repository's poller test: `lens_gauge.c`
is missing from the snapshot.  The spec's §4.B describes a NaN-sentinel
reset-on-read gauge, but the repository's own test
(`src/test/poller_test.c`, `poller_multi_lens_test`) asserts the opposite
behaviour: a never-set gauge polls as `0.0` and a set value is re-emitted by
every subsequent poll.  The model follows the test: both slots start at
`0.0`, `set` stores into the current-epoch slot, and `read` returns the
retired slot and propagates it into the other slot (gauges are sticky). -/
def lens_gauge_set (gauge : Slots ℚ) (epoch : ℕ) (value : ℚ) : Slots ℚ :=
  gauge.set epoch value

/-- Modelled from the spec and the repository's poller test (see
`lens_gauge_set`): read the retired slot and carry the value over to the
other slot; a gauge read always yields a value (`optics_ok`). -/
def lens_gauge_read (gauge : Slots ℚ) (epoch : ℕ) : ℚ × Slots ℚ :=
  let value := gauge.get epoch
  (value, gauge.set (epoch + 1) value)

/-- One epoch slot of a histogram cell: per-bucket counts plus the
below/above overflow counts. -/
structure LensHistoEpoch where
  below : ℕ
  above : ℕ
  counts : List ℕ
  deriving Repr, DecidableEq

/-- Modelled from the spec: `lens_histo.c` is missing from the snapshot.
A zeroed histogram epoch slot for `buckets_len` buckets. -/
def LensHistoEpoch.empty (buckets_len : ℕ) : LensHistoEpoch :=
  { below := 0, above := 0, counts := List.replicate buckets_len 0 }

/-- Helper of `histoBucketIdx`: first upper edge that bounds `value`. -/
def histoBucketScan (value : ℚ) (j : ℕ) : List ℕ → Option ℕ
  | [] => none
  | hi :: tl => if value < (hi : ℚ) then some j else histoBucketScan value (j + 1) tl

/-- Modelled from the spec: index of the half-open bucket `[b[j], b[j+1])`
containing `value` among the `edges.length - 1` buckets delimited by the
sorted `edges`; `none` when the value lies below the first or at/above the
last edge. -/
def histoBucketIdx (edges : List ℕ) (value : ℚ) : Option ℕ :=
  match edges with
  | [] => none
  | b0 :: rest =>
    if value < (b0 : ℚ) then none
    else histoBucketScan value 0 rest

/-- Modelled from the spec: `record(v)` finds the bucket of `v` among the
shared edges and increments its current-epoch count; out-of-range values
increment `below`/`above`. -/
def lens_histo_inc (edges : List ℕ) (histo : LensHistoEpoch) (value : ℚ) :
    LensHistoEpoch :=
  match histoBucketIdx edges value with
  | some j => { histo with counts := histo.counts.set j (histo.counts.getD j 0 + 1) }
  | none =>
    if value < ((edges.headD 0 : ℕ) : ℚ) then { histo with below := histo.below + 1 }
    else { histo with above := histo.above + 1 }

/-- Modelled from the spec: `read(e)` exchanges every per-bucket count and
the `below`/`above` counts with zero. -/
def lens_histo_read (histo : LensHistoEpoch) : LensHistoEpoch × LensHistoEpoch :=
  (histo, LensHistoEpoch.empty histo.counts.length)

/-! ## Poller (`poller_poll.c`, appended to `src/src/optics.h`)

`optics_poller_poll_at` flips the epoch (recording the previous flip
timestamp), then `poller_poll_optics` computes the elapsed window and
traverses the lens list, reading each cell at the retired epoch,
normalising and forwarding each emission to the backend. -/

/-- The `elapsed` computation at the head of `poller_poll_optics`, together
with whether the clock-out-of-sync warning is emitted:

    if (ts > last_poll) elapsed = ts - last_poll;
    else if (ts == last_poll) elapsed = 1;
    else { elapsed = 1; optics_warn(...); }
-/
def poller_elapsed (ts last_poll : ℕ) : ℕ × Bool :=
  if ts > last_poll then (ts - last_poll, false)
  else if ts = last_poll then (1, false)
  else (1, true)

/-- A metric cell of the poll scenarios: counter or gauge body. -/
inductive Cell where
  | counter (slots : Slots ℤ)
  | gauge (slots : Slots ℚ)
  deriving Repr, DecidableEq

/-- A registry as seen by the poller: the epoch counter, the timestamp of
the last flip and the lens list (head of the intrusive list first). -/
structure MiniOptics where
  epoch : ℕ
  epoch_last_inc : ℕ
  lenses : List (String × Cell)
  deriving Repr, DecidableEq

/-- `optics_gauge_create`: a new gauge cell is pushed at the list head with
a zeroed body. -/
def MiniOptics.createGauge (s : MiniOptics) (name : String) : MiniOptics :=
  { s with lenses := (name, Cell.gauge (Slots.init 0)) :: s.lenses }

/-- `optics_counter_create`: a new counter cell is pushed at the list head
with a zeroed body. -/
def MiniOptics.createCounter (s : MiniOptics) (name : String) : MiniOptics :=
  { s with lenses := (name, Cell.counter (Slots.init 0)) :: s.lenses }

/-- `optics_lens_close` in the scenario model: unlink the named lens from
the list (the lenses of the scenarios have unique names). -/
def MiniOptics.close (s : MiniOptics) (name : String) : MiniOptics :=
  { s with lenses := s.lenses.eraseP (fun p => p.1 == name) }

/-- `optics_gauge_set`: store into the current-epoch slot of the named
gauge. -/
def MiniOptics.gaugeSet (s : MiniOptics) (name : String) (value : ℚ) :
    MiniOptics :=
  { s with
    lenses := s.lenses.map fun p =>
      if p.1 = name then
        match p.2 with
        | Cell.gauge slots => (p.1, Cell.gauge (lens_gauge_set slots s.epoch value))
        | c => (p.1, c)
      else p }

/-- `optics_counter_inc`: `fetch_add` on the current-epoch slot of the named
counter. -/
def MiniOptics.counterInc (s : MiniOptics) (name : String) (value : ℤ) :
    MiniOptics :=
  { s with
    lenses := s.lenses.map fun p =>
      if p.1 = name then
        match p.2 with
        | Cell.counter slots => (p.1, Cell.counter (lens_counter_inc slots s.epoch value))
        | c => (p.1, c)
      else p }

/-- `optics_key_push` chain of `poller_poll_lens`: the emitted key is the
dotted concatenation `prefix.host.name`. -/
def pollKey (pre host name : String) : String :=
  String.intercalate "." [pre, host, name]

/-- Read-and-normalise one cell at the retired epoch: a counter read is
exchanged with zero and rescaled by `elapsed` (`lens_rescale`), a gauge read
yields the sticky value unscaled. -/
def pollCell (cell : Cell) (epoch : ℕ) (elapsed : ℕ) : ℚ × Cell :=
  match cell with
  | Cell.counter slots =>
    let r := lens_counter_read slots epoch
    ((r.1 : ℚ) / (elapsed : ℚ), Cell.counter r.2)
  | Cell.gauge slots =>
    let r := lens_gauge_read slots epoch
    (r.1, Cell.gauge r.2)

/-- The outcome of one `optics_poller_poll_at` sweep. -/
structure PollResult where
  ok : Bool
  elapsed : ℕ
  warned : Bool
  emissions : List (String × ℚ)
  state : MiniOptics
  deriving Repr, DecidableEq

/-- `optics_poller_poll_at`: flip the epoch (returning the retired bit and
the previous flip timestamp), compute `elapsed`, then traverse the lens
list, reading every cell at the retired epoch and emitting one normalised
metric per cell; the sweep always completes and returns `true`. -/
def optics_poller_poll_at (pre host : String) (s : MiniOptics) (ts : ℕ) :
    PollResult :=
  let retired := s.epoch % 2
  let last_poll := s.epoch_last_inc
  let flipped : MiniOptics := { s with epoch := s.epoch + 1, epoch_last_inc := ts }
  let e := poller_elapsed ts last_poll
  let polled := flipped.lenses.map fun p =>
    let r := pollCell p.2 retired e.1
    ((pollKey pre host p.1, r.1), (p.1, r.2))
  { ok := true
    elapsed := e.1
    warned := e.2
    emissions := polled.map Prod.fst
    state := { flipped with lenses := polled.map Prod.snd } }

/-! ## Registry (`src/src/optics.c`, single-heap-allocation variant)

The registry holds the name→cell map (`optics.keys`), the lock-free
intrusive lens list (`optics.lens_head`), the epoch counter with its last
flip timestamp, and the two per-epoch retire (defer) lists.  Cells are
modelled by allocation identifiers: `malloc` yields a fresh identifier
(addresses are never reused in the model), `free` moves an identifier to
the `freed` set.  The hash table is an external collaborator of the core
and is modelled by its interface as an association list. -/

/-- `enum optics_lens_type`. -/
inductive LensType where
  | counter
  | gauge
  | dist
  | histo
  | quantile
  deriving Repr, DecidableEq

/-- Association-list lookup (the htable interface `htable_get`). -/
def lookupKey {α β : Type} [DecidableEq α] : List (α × β) → α → Option β
  | [], _ => none
  | p :: ps, k => if p.1 = k then some p.2 else lookupKey ps k

/-- Association-list removal of the (unique) entry with the given key
(the htable interface `htable_del`). -/
def eraseKey {α β : Type} [DecidableEq α] : List (α × β) → α → List (α × β)
  | [], _ => []
  | p :: ps, k => if p.1 = k then ps else p :: eraseKey ps k

/-- The registry state (`struct optics` plus the allocator's view). -/
structure Registry where
  keys : List (String × ℕ)
  lensList : List ℕ
  defers : Slots (List ℕ)
  epoch : ℕ
  epoch_last_inc : ℕ
  cells : List (ℕ × String × LensType)
  freed : List ℕ
  nextId : ℕ
  deriving Repr, DecidableEq

/-- `optics_create_at(name, now)`: empty registry. -/
def Registry.init (now : ℕ) : Registry :=
  { keys := [], lensList := [], defers := ([], []), epoch := 0,
    epoch_last_inc := now, cells := [], freed := [], nextId := 0 }

/-- `optics_epoch`: the epoch counter viewed modulo 2. -/
def Registry.currentEpoch (s : Registry) : ℕ := s.epoch % 2

/-- `optics_defer_free`: push the cell on the retire list of the current
epoch (release-CAS at the head). -/
def Registry.deferFree (s : Registry) (id : ℕ) : Registry :=
  { s with defers := s.defers.set s.currentEpoch (id :: s.defers.get s.currentEpoch) }

/-- `optics_free_defered`: pop the whole retire list of epoch `e` and free
every node on it. -/
def Registry.freeDefered (s : Registry) (e : ℕ) : Registry :=
  { s with defers := s.defers.set e [], freed := s.defers.get e ++ s.freed }

/-- `optics_epoch_inc`: free the retire list of the epoch other than the
current one, then increment the counter and return the bit it held before
the increment. -/
def Registry.epochInc (s : Registry) : ℕ × Registry :=
  let s := s.freeDefered (s.currentEpoch + 1)
  (s.epoch % 2, { s with epoch := s.epoch + 1 })

/-- `optics_epoch_inc_at`: additionally exchanges the stored flip timestamp,
returning the previous one. -/
def Registry.epochIncAt (s : Registry) (now : ℕ) : (ℕ × ℕ) × Registry :=
  let last_inc := s.epoch_last_inc
  let s := { s with epoch_last_inc := now }
  let r := s.epochInc
  ((r.1, last_inc), r.2)

/-- `lens_alloc` (success path): a fresh cell identifier recorded with its
name and type. -/
def Registry.alloc (s : Registry) (name : String) (ty : LensType) :
    ℕ × Registry :=
  (s.nextId, { s with cells := (s.nextId, name, ty) :: s.cells,
                      nextId := s.nextId + 1 })

/-- `optics_lens_create` wrapped by `optics_<type>_create`: allocate a cell,
insert it in the name map and push it at the list head; on a name collision
the insert fails, the fresh cell is freed (`lens_free`) and no cell is
returned. -/
def Registry.create (s : Registry) (name : String) (ty : LensType) :
    Option ℕ × Registry :=
  let a := s.alloc name ty
  match lookupKey a.2.keys name with
  | some _ => (none, { a.2 with freed := a.1 :: a.2.freed })
  | none =>
    (some a.1, { a.2 with keys := (name, a.1) :: a.2.keys,
                          lensList := a.1 :: a.2.lensList })

/-- `optics_lens_open` wrapped by `optics_<type>_open`: allocate a cell and
try to insert it; if the name already exists the fresh cell is freed and
the existing cell is returned — the requested type is never compared with
the existing cell's type. -/
def Registry.openLens (s : Registry) (name : String) (ty : LensType) :
    ℕ × Registry :=
  let a := s.alloc name ty
  match lookupKey a.2.keys name with
  | some id => (id, { a.2 with freed := a.1 :: a.2.freed })
  | none =>
    (a.1, { a.2 with keys := (name, a.1) :: a.2.keys,
                     lensList := a.1 :: a.2.lensList })

/-- `optics_lens_close`: delete the lens's *name* from the map; if the
delete succeeded, unlink the given lens from the list and enqueue it on the
retire list of the current epoch.  The map delete keys on the name only, so
it succeeds whenever *any* cell is registered under that name. -/
def Registry.closeLens (s : Registry) (id : ℕ) : Bool × Registry :=
  match lookupKey s.cells id with
  | none => (false, s)
  | some info =>
    match lookupKey s.keys info.1 with
    | none => (false, s)
    | some _ =>
      let s := { s with keys := eraseKey s.keys info.1,
                        lensList := s.lensList.erase id }
      (true, s.deferFree id)

/-- The registry operations of claim C8's sequences. -/
inductive RegOp where
  | createOp (ty : LensType) (name : String)
  | openOp (ty : LensType) (name : String)
  | closeOp (id : ℕ)
  | flipOp (now : ℕ)
  deriving Repr, DecidableEq

/-- Apply one operation, discarding the returned value. -/
def Registry.applyOp (s : Registry) : RegOp → Registry
  | RegOp.createOp ty name => (s.create name ty).2
  | RegOp.openOp ty name => (s.openLens name ty).2
  | RegOp.closeOp id => (s.closeLens id).2
  | RegOp.flipOp now => (s.epochIncAt now).2

/-- Run a sequence of registry operations from a fresh registry. -/
def Registry.runOps (ops : List RegOp) : Registry :=
  ops.foldl Registry.applyOp (Registry.init 0)

/-! ### Association-list lemmas -/

theorem lookupKey_mem {α β : Type} [DecidableEq α] {l : List (α × β)} {k : α}
    {v : β} (h : lookupKey l k = some v) : (k, v) ∈ l := by
  induction l with
  | nil => simp [lookupKey] at h
  | cons p ps ih =>
    by_cases hp : p.1 = k
    · simp only [lookupKey, hp, if_pos, Option.some.injEq] at h
      exact List.mem_cons.mpr (Or.inl (by rw [← hp, ← h]))
    · simp only [lookupKey, hp, if_neg, if_false] at h
      exact List.mem_cons.mpr (Or.inr (ih h))

theorem lookupKey_eq_none {α β : Type} [DecidableEq α] {l : List (α × β)}
    {k : α} (h : lookupKey l k = none) : ∀ p ∈ l, p.1 ≠ k := by
  induction l with
  | nil => simp
  | cons p ps ih =>
    by_cases hp : p.1 = k
    · simp [lookupKey, hp] at h
    · simp only [lookupKey, hp, if_neg, if_false] at h
      intro q hq
      rcases List.mem_cons.mp hq with rfl | hq
      · exact hp
      · exact ih h q hq

theorem mem_of_mem_eraseKey {α β : Type} [DecidableEq α] {l : List (α × β)}
    {k : α} {p : α × β} (h : p ∈ eraseKey l k) : p ∈ l := by
  induction l with
  | nil => simp [eraseKey] at h
  | cons q ps ih =>
    by_cases hq : q.1 = k
    · simp only [eraseKey, hq, if_pos] at h
      exact List.mem_cons.mpr (Or.inr h)
    · simp only [eraseKey, hq, if_neg, if_false] at h
      rcases List.mem_cons.mp h with rfl | h
      · exact List.mem_cons.mpr (Or.inl rfl)
      · exact List.mem_cons.mpr (Or.inr (ih h))

theorem eraseKey_map_fst_sublist {α β : Type} [DecidableEq α]
    (l : List (α × β)) (k : α) :
    ((eraseKey l k).map Prod.fst).Sublist (l.map Prod.fst) := by
  induction l with
  | nil => simp [eraseKey]
  | cons q ps ih =>
    by_cases hq : q.1 = k
    · simp only [eraseKey, hq, if_pos, List.map_cons]
      exact (List.Sublist.refl _).cons _
    · simp only [eraseKey, hq, if_neg, if_false, List.map_cons]
      exact ih.cons₂ q.1

theorem mem_eraseKey_ne {α β : Type} [DecidableEq α] {l : List (α × β)}
    {k : α} (nd : (l.map Prod.fst).Nodup) {p : α × β}
    (h : p ∈ eraseKey l k) : p.1 ≠ k := by
  induction l with
  | nil => simp [eraseKey] at h
  | cons q ps ih =>
    rw [List.map_cons, List.nodup_cons] at nd
    by_cases hq : q.1 = k
    · simp only [eraseKey, hq, if_pos] at h
      intro hk
      exact nd.1 (hq ▸ hk ▸ List.mem_map_of_mem Prod.fst h)
    · simp only [eraseKey, hq, if_neg, if_false] at h
      rcases List.mem_cons.mp h with rfl | h
      · exact hq
      · exact ih nd.2 h

/-! ### The registry/list consistency invariant (claim C8) -/

/-- The consistency invariant of the registry: every mapped cell is on the
lens list, listed cells are neither freed nor pending on a retire list, and
the bookkeeping (unique names, unique identifiers, allocation bound,
map-entry/cell-name agreement) that makes the operations well-behaved. -/
structure RegInv (s : Registry) : Prop where
  keys_mem : ∀ p ∈ s.keys, p.2 ∈ s.lensList
  list_fresh : ∀ i ∈ s.lensList, i ∉ s.freed
  list_defer1 : ∀ i ∈ s.lensList, i ∉ s.defers.1
  list_defer2 : ∀ i ∈ s.lensList, i ∉ s.defers.2
  names_nodup : (s.keys.map Prod.fst).Nodup
  keys_named : ∀ p ∈ s.keys, ∃ ty, lookupKey s.cells p.2 = some (p.1, ty)
  list_nodup : s.lensList.Nodup
  cells_nodup : (s.cells.map Prod.fst).Nodup
  list_lt : ∀ i ∈ s.lensList, i < s.nextId
  freed_lt : ∀ i ∈ s.freed, i < s.nextId
  defer1_lt : ∀ i ∈ s.defers.1, i < s.nextId
  defer2_lt : ∀ i ∈ s.defers.2, i < s.nextId
  keys_lt : ∀ p ∈ s.keys, p.2 < s.nextId
  cells_lt : ∀ c ∈ s.cells, c.1 < s.nextId

theorem regInv_init (now : ℕ) : RegInv (Registry.init now) := by
  constructor <;> simp [Registry.init]

theorem regInv_create {s : Registry} (inv : RegInv s) (name : String)
    (ty : LensType) : RegInv (s.create name ty).2 := by
  cases h : lookupKey s.keys name with
  | some id =>
    simp only [Registry.create, Registry.alloc, h]
    constructor
    · exact inv.keys_mem
    · intro i hi
      simp only [List.mem_cons, not_or]
      exact ⟨Nat.ne_of_lt (inv.list_lt i hi), inv.list_fresh i hi⟩
    · exact inv.list_defer1
    · exact inv.list_defer2
    · exact inv.names_nodup
    · intro p hp
      obtain ⟨ty', hty⟩ := inv.keys_named p hp
      exact ⟨ty', by
        simpa [lookupKey, Nat.ne_of_gt (inv.keys_lt p hp)] using hty⟩
    · exact inv.list_nodup
    · rw [List.map_cons, List.nodup_cons]
      refine ⟨?_, inv.cells_nodup⟩
      intro hmem
      obtain ⟨c, hc, hfst⟩ := List.mem_map.mp hmem
      exact absurd hfst (Nat.ne_of_lt (inv.cells_lt c hc))
    · exact fun i hi => Nat.lt_succ_of_lt (inv.list_lt i hi)
    · intro i hi
      rcases List.mem_cons.mp hi with rfl | hi
      · exact Nat.lt_succ_self _
      · exact Nat.lt_succ_of_lt (inv.freed_lt i hi)
    · exact fun i hi => Nat.lt_succ_of_lt (inv.defer1_lt i hi)
    · exact fun i hi => Nat.lt_succ_of_lt (inv.defer2_lt i hi)
    · exact fun p hp => Nat.lt_succ_of_lt (inv.keys_lt p hp)
    · intro c hc
      rcases List.mem_cons.mp hc with rfl | hc
      · exact Nat.lt_succ_self _
      · exact Nat.lt_succ_of_lt (inv.cells_lt c hc)
  | none =>
    simp only [Registry.create, Registry.alloc, h]
    constructor
    · intro p hp
      rcases List.mem_cons.mp hp with rfl | hp
      · exact List.mem_cons_self _ _
      · exact List.mem_cons_of_mem _ (inv.keys_mem p hp)
    · intro i hi
      rcases List.mem_cons.mp hi with rfl | hi
      · exact fun hmem => absurd (inv.freed_lt _ hmem) (Nat.lt_irrefl _)
      · exact inv.list_fresh i hi
    · intro i hi
      rcases List.mem_cons.mp hi with rfl | hi
      · exact fun hmem => absurd (inv.defer1_lt _ hmem) (Nat.lt_irrefl _)
      · exact inv.list_defer1 i hi
    · intro i hi
      rcases List.mem_cons.mp hi with rfl | hi
      · exact fun hmem => absurd (inv.defer2_lt _ hmem) (Nat.lt_irrefl _)
      · exact inv.list_defer2 i hi
    · rw [List.map_cons, List.nodup_cons]
      refine ⟨?_, inv.names_nodup⟩
      intro hmem
      obtain ⟨p, hp, hfst⟩ := List.mem_map.mp hmem
      exact lookupKey_eq_none h p hp hfst
    · intro p hp
      rcases List.mem_cons.mp hp with rfl | hp
      · exact ⟨ty, by simp [lookupKey]⟩
      · obtain ⟨ty', hty⟩ := inv.keys_named p hp
        exact ⟨ty', by
          simpa [lookupKey, Nat.ne_of_gt (inv.keys_lt p hp)] using hty⟩
    · rw [List.nodup_cons]
      exact ⟨fun hmem => absurd (inv.list_lt _ hmem) (Nat.lt_irrefl _),
        inv.list_nodup⟩
    · rw [List.map_cons, List.nodup_cons]
      refine ⟨?_, inv.cells_nodup⟩
      intro hmem
      obtain ⟨c, hc, hfst⟩ := List.mem_map.mp hmem
      exact absurd hfst (Nat.ne_of_lt (inv.cells_lt c hc))
    · intro i hi
      rcases List.mem_cons.mp hi with rfl | hi
      · exact Nat.lt_succ_self _
      · exact Nat.lt_succ_of_lt (inv.list_lt i hi)
    · exact fun i hi => Nat.lt_succ_of_lt (inv.freed_lt i hi)
    · exact fun i hi => Nat.lt_succ_of_lt (inv.defer1_lt i hi)
    · exact fun i hi => Nat.lt_succ_of_lt (inv.defer2_lt i hi)
    · intro p hp
      rcases List.mem_cons.mp hp with rfl | hp
      · exact Nat.lt_succ_self _
      · exact Nat.lt_succ_of_lt (inv.keys_lt p hp)
    · intro c hc
      rcases List.mem_cons.mp hc with rfl | hc
      · exact Nat.lt_succ_self _
      · exact Nat.lt_succ_of_lt (inv.cells_lt c hc)

theorem regInv_open {s : Registry} (inv : RegInv s) (name : String)
    (ty : LensType) : RegInv (s.openLens name ty).2 := by
  have hcreate := regInv_create inv name ty
  cases h : lookupKey s.keys name with
  | some id =>
    simp only [Registry.openLens, Registry.alloc, h]
    simpa only [Registry.create, Registry.alloc, h] using hcreate
  | none =>
    simp only [Registry.openLens, Registry.alloc, h]
    simpa only [Registry.create, Registry.alloc, h] using hcreate

theorem regInv_close {s : Registry} (inv : RegInv s) (id : ℕ) :
    RegInv (s.closeLens id).2 := by
  cases hc : lookupKey s.cells id with
  | none => simpa only [Registry.closeLens, hc] using inv
  | some info =>
    cases hk : lookupKey s.keys info.1 with
    | none => simpa only [Registry.closeLens, hc, hk] using inv
    | some id2 =>
      have hidlt : id < s.nextId := inv.cells_lt _ (lookupKey_mem hc)
      have hmod : s.epoch % 2 % 2 = s.epoch % 2 := Nat.mod_mod_of_dvd _ dvd_rfl
      simp only [Registry.closeLens, hc, hk, Registry.deferFree,
        Registry.currentEpoch, Slots.set, Slots.get, hmod]
      by_cases he : s.epoch % 2 = 0
      · simp only [if_pos he]
        constructor
        · intro p hp
          have hmem := mem_of_mem_eraseKey hp
          have hne : p.2 ≠ id := by
            intro h2
            obtain ⟨ty', hty⟩ := inv.keys_named p hmem
            rw [h2, hc] at hty
            exact mem_eraseKey_ne inv.names_nodup hp (by
              injection hty with h3; rw [h3])
          exact (List.mem_erase_of_ne hne).mpr (inv.keys_mem p hmem)
        · exact fun i hi =>
            inv.list_fresh i (List.mem_of_mem_erase hi)
        · intro i hi
          have := (inv.list_nodup.mem_erase_iff).mp hi
          simp only [List.mem_cons, not_or]
          exact ⟨this.1, inv.list_defer1 i this.2⟩
        · exact fun i hi => inv.list_defer2 i (List.mem_of_mem_erase hi)
        · exact (eraseKey_map_fst_sublist s.keys info.1).nodup inv.names_nodup
        · exact fun p hp => inv.keys_named p (mem_of_mem_eraseKey hp)
        · exact inv.list_nodup.erase id
        · exact inv.cells_nodup
        · exact fun i hi => inv.list_lt i (List.mem_of_mem_erase hi)
        · exact inv.freed_lt
        · intro i hi
          rcases List.mem_cons.mp hi with rfl | hi
          · exact hidlt
          · exact inv.defer1_lt i hi
        · exact inv.defer2_lt
        · exact fun p hp => inv.keys_lt p (mem_of_mem_eraseKey hp)
        · exact inv.cells_lt
      · simp only [if_neg he]
        constructor
        · intro p hp
          have hmem := mem_of_mem_eraseKey hp
          have hne : p.2 ≠ id := by
            intro h2
            obtain ⟨ty', hty⟩ := inv.keys_named p hmem
            rw [h2, hc] at hty
            exact mem_eraseKey_ne inv.names_nodup hp (by
              injection hty with h3; rw [h3])
          exact (List.mem_erase_of_ne hne).mpr (inv.keys_mem p hmem)
        · exact fun i hi => inv.list_fresh i (List.mem_of_mem_erase hi)
        · exact fun i hi => inv.list_defer1 i (List.mem_of_mem_erase hi)
        · intro i hi
          have := (inv.list_nodup.mem_erase_iff).mp hi
          simp only [List.mem_cons, not_or]
          exact ⟨this.1, inv.list_defer2 i this.2⟩
        · exact (eraseKey_map_fst_sublist s.keys info.1).nodup inv.names_nodup
        · exact fun p hp => inv.keys_named p (mem_of_mem_eraseKey hp)
        · exact inv.list_nodup.erase id
        · exact inv.cells_nodup
        · exact fun i hi => inv.list_lt i (List.mem_of_mem_erase hi)
        · exact inv.freed_lt
        · exact inv.defer1_lt
        · intro i hi
          rcases List.mem_cons.mp hi with rfl | hi
          · exact hidlt
          · exact inv.defer2_lt i hi
        · exact fun p hp => inv.keys_lt p (mem_of_mem_eraseKey hp)
        · exact inv.cells_lt


theorem regInv_flip {s : Registry} (inv : RegInv s) (now : ℕ) :
    RegInv (s.epochIncAt now).2 := by
  simp only [Registry.epochIncAt, Registry.epochInc, Registry.freeDefered,
    Registry.currentEpoch, Slots.set, Slots.get]
  by_cases he : (s.epoch % 2 + 1) % 2 = 0 <;>
    simp only [he, if_pos, if_neg, if_true, if_false, reduceIte] <;> constructor
  · exact inv.keys_mem
  · intro i hi
    rw [List.mem_append, not_or]
    exact ⟨inv.list_defer1 i hi, inv.list_fresh i hi⟩
  · simp
  · exact inv.list_defer2
  · exact inv.names_nodup
  · exact inv.keys_named
  · exact inv.list_nodup
  · exact inv.cells_nodup
  · exact inv.list_lt
  · intro i hi
    rcases List.mem_append.mp hi with hi | hi
    · exact inv.defer1_lt i hi
    · exact inv.freed_lt i hi
  · simp
  · exact inv.defer2_lt
  · exact inv.keys_lt
  · exact inv.cells_lt
  · exact inv.keys_mem
  · intro i hi
    rw [List.mem_append, not_or]
    exact ⟨inv.list_defer2 i hi, inv.list_fresh i hi⟩
  · exact inv.list_defer1
  · simp
  · exact inv.names_nodup
  · exact inv.keys_named
  · exact inv.list_nodup
  · exact inv.cells_nodup
  · exact inv.list_lt
  · intro i hi
    rcases List.mem_append.mp hi with hi | hi
    · exact inv.defer2_lt i hi
    · exact inv.freed_lt i hi
  · exact inv.defer1_lt
  · simp
  · exact inv.keys_lt
  · exact inv.cells_lt

theorem regInv_applyOp {s : Registry} (inv : RegInv s) (op : RegOp) :
    RegInv (s.applyOp op) := by
  cases op with
  | createOp ty name => exact regInv_create inv name ty
  | openOp ty name => exact regInv_open inv name ty
  | closeOp id => exact regInv_close inv id
  | flipOp now => exact regInv_flip inv now

theorem regInv_foldl {s : Registry} (inv : RegInv s) (ops : List RegOp) :
    RegInv (ops.foldl Registry.applyOp s) := by
  induction ops generalizing s with
  | nil => exact inv
  | cons op ops ih => exact ih (regInv_applyOp inv op)

theorem regInv_runOps (ops : List RegOp) : RegInv (Registry.runOps ops) :=
  regInv_foldl (regInv_init 0) ops

/-! ## Name length check (`lens_alloc` in `src/src/lens.c`)

`lens_alloc` computes `name_len = strnlen(name, 256) + 1` and fails iff
`name_len == 256`; otherwise `name_len - 1` bytes of the name are copied
into the cell.  Names are modelled as byte lists. -/

/-- `optics_name_max_len` from `optics.h`. -/
def optics_name_max_len : ℕ := 256

/-- C `strnlen`: the length of the name, capped at `maxlen`. -/
def strnlen (name : List Char) (maxlen : ℕ) : ℕ := min name.length maxlen

/-- The name-handling of `lens_alloc`: `none` models the `return 0` failure
path, `some stored` the allocated cell with the copied name bytes
(`memcpy(lens_name_ptr(lens), name, name_len - 1)`). -/
def lens_alloc_name (name : List Char) : Option (List Char) :=
  let name_len := strnlen name optics_name_max_len + 1
  if name_len = optics_name_max_len then none
  else some (name.take (name_len - 1))

/-! ## Scenario states used by the claim theorems -/

/-- A registry holding one just-created, never-set gauge `g1`
(the absent-gauge scenario of claim C3). -/
def gaugeOnlyState : MiniOptics := (⟨0, 0, []⟩ : MiniOptics).createGauge "g1"

/-- `poller_multi_lens_test` (from `src/test/poller_test.c`), state before
the first poll: gauges `g1`..`g3` created at ts=1, `g2 := 1.0`,
`g3 := 1.2e-4`. -/
def multiLensState1 : MiniOptics :=
  (((((⟨0, 0, []⟩ : MiniOptics).createGauge "g1").createGauge
    "g2").createGauge "g3").gaugeSet "g2" 1).gaugeSet "g3" (3 / 25000)

/-- First poll of the multi-lens scenario, at ts=1. -/
def multiLensPoll1 : PollResult :=
  optics_poller_poll_at "prefix" "host" multiLensState1 1

/-- Second window: create `g4`, close `g1`, `g2 := 2.0`, `g4 := -1.0`;
poll at ts=2. -/
def multiLensPoll2 : PollResult :=
  optics_poller_poll_at "prefix" "host"
    ((((multiLensPoll1.state.createGauge "g4").close "g1").gaugeSet
      "g2" 2).gaugeSet "g4" (-1)) 2

/-- Third window: re-create `g1` and set it to 1.0; poll at ts=3. -/
def multiLensPoll3 : PollResult :=
  optics_poller_poll_at "prefix" "host"
    ((multiLensPoll2.state.createGauge "g1").gaugeSet "g1" 1) 3

/-- Fourth window: close all four gauges; poll at ts=4. -/
def multiLensPoll4 : PollResult :=
  optics_poller_poll_at "prefix" "host"
    ((((multiLensPoll3.state.close "g1").close "g2").close "g3").close "g4") 4

/-- The quantile cell of claim C2's counterexample: base estimate 0,
adjustment step 1/2, multiplier 1, so `m·δ = 1/2`. -/
def quantileCex : LensQuantile :=
  { target_quantile := 1 / 2, original_estimate := 0,
    adjustment_value := 1 / 2, multiplier := 1, count := Slots.init 0 }

/-- Registry holding a counter cell named `n` (claim C4's scenario). -/
def typedRegistry : Registry := ((Registry.init 0).create "n" LensType.counter).2

/-- Claim C10's scenario: create gauge `g1` (cell 0), close it, create a new
gauge `g1` (cell 1); the stale pointer to cell 0 is then closed a second
time. -/
def doubleCloseState : Registry :=
  (((((Registry.init 0).create "g1" LensType.gauge).2.closeLens
    0).2.create "g1" LensType.gauge).2)

/-! ## Claim theorems -/

/-- C1 (counterexample): recording the integers 1..100 once each into a
dist and reading does *not* return `p50 = 50`, `p90 = 90`, `p99 = 99`: the
sorted prefix is `[1, ..., 100]` and the element at index
`(100 * 50) / 100 = 50` is `51` (likewise 91 and 100), so the claimed
result tuple is false. -/
theorem c1_dist_percentiles_counterexample :
    ¬(distScenarioResult.n = 100 ∧ distScenarioResult.p50 = 50 ∧
      distScenarioResult.p90 = 90 ∧ distScenarioResult.p99 = 99 ∧
      distScenarioResult.max = 100) := by
  set_option maxRecDepth 40000 in decide

/-- C1 (amended): recording the integers 1..100 once each into a dist with
`R = 200` and reading that epoch returns `count = 100`, `p50 = 51`,
`p90 = 91`, `p99 = 100` and `max = 100`, the percentiles being the elements
at indices `(len·P)/100` of the ascending sorted copied prefix. -/
theorem c1_dist_percentiles :
    distScenarioResult.n = 100 ∧ distScenarioResult.p50 = 51 ∧
    distScenarioResult.p90 = 91 ∧ distScenarioResult.p99 = 100 ∧
    distScenarioResult.max = 100 := by
  set_option maxRecDepth 40000 in decide

/-- C2 (counterexample): for the quantile cell with base 0, step `δ = 1/2`
and multiplier `m = 1`, the estimate computed by `calculate_quantile` is
`0` (the `double` product `m·δ = 1/2` is truncated through the `size_t`
local `adjustment`), not `base + m·δ = 1/2`. -/
theorem c2_quantile_estimate_counterexample :
    ¬(calculate_quantile quantileCex =
      some (quantileCex.original_estimate +
        (quantileCex.multiplier : ℚ) * quantileCex.adjustment_value)) := by
  norm_num [calculate_quantile, doubleToSizeT, quantileCex]

/-- C2 (amended): the current estimate equals `base + m·δ` exactly when the
product `m·δ` is a nonnegative integer below `2^64` (so that the `size_t`
conversion inside `calculate_quantile` is lossless); in that case the
quantile read also returns that estimate as `sample`, the target quantile,
and the exchanged-to-zero per-epoch count. -/
theorem c2_quantile_estimate (q : LensQuantile) (e : ℕ) (k : ℕ)
    (hk : (q.multiplier : ℚ) * q.adjustment_value = (k : ℚ))
    (hlt : (k : ℚ) < 2 ^ 64) :
    calculate_quantile q =
      some (q.original_estimate +
        (q.multiplier : ℚ) * q.adjustment_value) ∧
    lens_quantile_read q e =
      some ({ quantile := q.target_quantile
              sample := q.original_estimate +
                (q.multiplier : ℚ) * q.adjustment_value
              count := q.count.get e },
            { q with count := q.count.set e 0 }) := by
  have hcalc : calculate_quantile q =
      some (q.original_estimate + (q.multiplier : ℚ) * q.adjustment_value) := by
    have hpos : (-1 : ℚ) < (k : ℚ) := by
      have := Nat.cast_nonneg (α := ℚ) k
      linarith
    rw [calculate_quantile, doubleToSizeT, hk, if_pos ⟨hpos, hlt⟩]
    simp [Int.floor_natCast, hk]
  exact ⟨hcalc, by rw [lens_quantile_read, hcalc]; rfl⟩

/-- C2 (witness): the amended statement at the cell with base 5, step 3,
multiplier 2, where `m·δ = 6`. -/
theorem c2_quantile_estimate_witness :
    calculate_quantile
      { target_quantile := 1 / 2, original_estimate := 5,
        adjustment_value := 3, multiplier := 2, count := (4, 7) } =
      some (5 + (2 : ℚ) * 3) ∧
    lens_quantile_read
      { target_quantile := 1 / 2, original_estimate := 5,
        adjustment_value := 3, multiplier := 2, count := (4, 7) } 0 =
      some ({ quantile := 1 / 2, sample := 5 + (2 : ℚ) * 3, count := 4 },
        { target_quantile := 1 / 2, original_estimate := 5,
          adjustment_value := 3, multiplier := 2, count := (0, 7) }) := by
  have h := c2_quantile_estimate
    { target_quantile := 1 / 2, original_estimate := 5,
      adjustment_value := 3, multiplier := 2, count := (4, 7) } 0 6
    (by norm_num) (by norm_num)
  simpa [Slots.get, Slots.set] using h

/-- C3 (counterexample): a freshly created, never-set gauge is *not* absent
from the poll of its first window: the sweep emits `prefix.host.g1` with
value `0.0`. -/
theorem c3_gauge_absent_counterexample :
    ("prefix.host.g1", (0 : ℚ)) ∈
      (optics_poller_poll_at "prefix" "host" gaugeOnlyState 1).emissions := by
  decide

/-- C3 (amended): a gauge is emitted on every poll with its most recently
set value, `0.0` if it was never set, and the value carries over to later
windows — exactly the behaviour asserted by `poller_multi_lens_test`: the
four polls of the scenario produce the test's expected tables. -/
theorem c3_gauge_sticky :
    multiLensPoll1.emissions =
      [("prefix.host.g3", 3 / 25000), ("prefix.host.g2", 1),
       ("prefix.host.g1", 0)] ∧
    multiLensPoll2.emissions =
      [("prefix.host.g4", -1), ("prefix.host.g3", 3 / 25000),
       ("prefix.host.g2", 2)] ∧
    multiLensPoll3.emissions =
      [("prefix.host.g1", 1), ("prefix.host.g4", -1),
       ("prefix.host.g3", 3 / 25000), ("prefix.host.g2", 2)] ∧
    multiLensPoll4.emissions = [] := by
  exact ⟨rfl, rfl, rfl, rfl⟩

/-- C4 (counterexample): with a counter cell registered under `n`, opening
`n` as a *gauge* does not fail: it returns the existing cell (identifier 0),
whose recorded type is `counter`, not `gauge`. -/
theorem c4_open_type_counterexample :
    (typedRegistry.openLens "n" LensType.gauge).1 = 0 ∧
    lookupKey (typedRegistry.openLens "n" LensType.gauge).2.cells 0 =
      some ("n", LensType.counter) ∧
    LensType.counter ≠ LensType.gauge := by
  decide

/-- C4 (amended): opening a name that is already registered returns the
existing cell regardless of the requested type — no type comparison is
performed by `optics_lens_open`, and the name map is left unchanged (type
mismatches only surface later, when a record/read calls `lens_sub_ptr`). -/
theorem c4_open_returns_existing (s : Registry) (name : String)
    (ty : LensType) (id : ℕ) (h : lookupKey s.keys name = some id) :
    (s.openLens name ty).1 = id ∧ (s.openLens name ty).2.keys = s.keys := by
  simp [Registry.openLens, Registry.alloc, h]

/-- C4 (witness): the amended statement applied to the registry holding the
counter cell `n`. -/
theorem c4_open_returns_existing_witness :
    (typedRegistry.openLens "n" LensType.gauge).1 = 0 ∧
    (typedRegistry.openLens "n" LensType.gauge).2.keys = typedRegistry.keys :=
  c4_open_returns_existing typedRegistry "n" LensType.gauge 0 (by decide)

/-- C5: `poll_at(ts)` computes `elapsed = ts - prev_ts` when `ts > prev_ts`
and `1` otherwise (both for `ts = prev_ts` and `ts < prev_ts`); the warning
is emitted exactly when `ts < prev_ts`, and the sweep still completes,
emitting one normalised metric per live lens. -/
theorem c5_poll_elapsed (pre host : String) (s : MiniOptics) (ts : ℕ) :
    (optics_poller_poll_at pre host s ts).ok = true ∧
    (optics_poller_poll_at pre host s ts).elapsed =
      (if s.epoch_last_inc < ts then ts - s.epoch_last_inc else 1) ∧
    ((optics_poller_poll_at pre host s ts).warned = true ↔
      ts < s.epoch_last_inc) ∧
    (optics_poller_poll_at pre host s ts).emissions.length =
      s.lenses.length := by
  have hspec : (poller_elapsed ts s.epoch_last_inc).1 =
      (if s.epoch_last_inc < ts then ts - s.epoch_last_inc else 1) ∧
      ((poller_elapsed ts s.epoch_last_inc).2 = true ↔
        ts < s.epoch_last_inc) := by
    unfold poller_elapsed
    rcases Nat.lt_trichotomy s.epoch_last_inc ts with h | h | h
    · rw [if_pos h, if_pos h]
      exact ⟨rfl, by simp; omega⟩
    · rw [if_neg (by omega), if_pos h.symm, if_neg (by omega)]
      exact ⟨rfl, by simp; omega⟩
    · rw [if_neg (by omega), if_neg (by omega), if_neg (by omega)]
      exact ⟨rfl, by simp [h]⟩
  exact ⟨rfl, hspec.1, hspec.2, by simp [optics_poller_poll_at]⟩

/-- C6: `flip(now)` (`optics_epoch_inc_at`) first drains the retire list of
the epoch other than the current one into the freed set, then increments
the epoch counter; it returns the pre-increment epoch bit and the
previously stored timestamp, after which the current epoch is the
complement of the returned bit, the stored timestamp is `now`, and the
current epoch's retire list is untouched. -/
theorem c6_epoch_flip (s : Registry) (now : ℕ) :
    (s.epochIncAt now).1.1 = s.epoch % 2 ∧
    (s.epochIncAt now).1.2 = s.epoch_last_inc ∧
    (s.epochIncAt now).2.epoch = s.epoch + 1 ∧
    (s.epochIncAt now).2.epoch_last_inc = now ∧
    (s.epochIncAt now).2.epoch % 2 = 1 - s.epoch % 2 ∧
    (s.epochIncAt now).2.defers.get (s.epoch % 2 + 1) = [] ∧
    (s.epochIncAt now).2.defers.get (s.epoch % 2) =
      s.defers.get (s.epoch % 2) ∧
    (s.epochIncAt now).2.freed = s.defers.get (s.epoch % 2 + 1) ++ s.freed := by
  have h2 : s.epoch % 2 = 0 ∨ s.epoch % 2 = 1 := Nat.mod_two_eq_zero_or_one _
  rcases h2 with h | h <;>
    simp [Registry.epochIncAt, Registry.epochInc, Registry.freeDefered,
      Registry.currentEpoch, Slots.get, Slots.set, h, Nat.add_mod, Nat.mod_mod_of_dvd]

/-- C7 (counterexample): a gauge does not read back as "no value" on a
second read of the same epoch: after setting `1.0`, the second read of
epoch 0 still returns `1.0`, not the zero/absent value of the type. -/
theorem c7_read_reset_counterexample :
    (lens_gauge_read (lens_gauge_read (Slots.init (1 : ℚ)) 0).2 0).1 = 1 ∧
    (1 : ℚ) ≠ 0 := by
  decide

/-- C7 (amended): a second read of the same epoch with no intervening
records returns: 0 for a counter; for a gauge the *unchanged carried-over
value* (emitted again, not absent); the empty reservoir for a dist; zeroed
counts for a histogram; and for a quantile the unchanged sample with
count 0. -/
theorem c7_read_reset :
    (∀ (c : Slots ℤ) (e : ℕ),
      (lens_counter_read (lens_counter_read c e).2 e).1 = 0) ∧
    (∀ (g : Slots ℚ) (e : ℕ),
      (lens_gauge_read (lens_gauge_read g e).2 e).1 = (lens_gauge_read g e).1) ∧
    (∀ (d : LensDistEpoch) (v : OpticsDist),
      (lens_dist_read (lens_dist_read d v).2 OpticsDist.zero).1 =
        OpticsDist.zero) ∧
    (∀ h : LensHistoEpoch,
      (lens_histo_read (lens_histo_read h).2).1 =
        LensHistoEpoch.empty h.counts.length) ∧
    (∀ (q : LensQuantile) (e : ℕ),
      ((lens_quantile_read q e).bind
          (fun r => lens_quantile_read r.2 e)).map
          (fun r2 => (r2.1.sample, r2.1.count)) =
        (lens_quantile_read q e).map (fun r => (r.1.sample, 0))) := by
  refine ⟨?_, ?_, ?_, ?_, ?_⟩
  · intro c e
    exact Slots.get_set_same _ _ _
  · intro g e
    show ((g.set (e + 1) (g.get e)).get e, _).1 = (g.get e, _).1
    have : (e + 1) % 2 ≠ e % 2 := by omega
    simp [lens_gauge_read, Slots.get_set_other _ _ _ _ this]
  · intro d v
    have h2 : (lens_dist_read d v).2 = { d with max := 0, n := 0 } := by
      simp only [lens_dist_read]
      split <;> rfl
    rw [h2]
    rfl
  · intro h
    simp [lens_histo_read, LensHistoEpoch.empty]
  · intro q e
    have hq : calculate_quantile { q with count := q.count.set e 0 } =
        calculate_quantile q := rfl
    cases hc : calculate_quantile q with
    | none => simp [lens_quantile_read, hc]
    | some est =>
      simp [lens_quantile_read, hc, hq, Slots.get_set_same]

/-- C8: after any sequence of create/open/close/flip operations starting
from a fresh registry, every cell present in the name map is reachable on
the lens list, and no cell on the lens list has been freed (traversal never
visits a freed cell). -/
theorem c8_registry_list_consistency (ops : List RegOp) :
    (∀ p ∈ (Registry.runOps ops).keys, p.2 ∈ (Registry.runOps ops).lensList) ∧
    (∀ i ∈ (Registry.runOps ops).lensList, i ∉ (Registry.runOps ops).freed) :=
  ⟨(regInv_runOps ops).keys_mem, (regInv_runOps ops).list_fresh⟩

/-- C8 (witness): the consistency statement instantiated on a concrete
sequence (create two cells, close one, flip twice, re-create): the mapped
cells are on the list and the listed cells are unfreed. -/
theorem c8_registry_list_consistency_witness :
    (("g2", 1).2 ∈ (Registry.runOps
      [RegOp.createOp LensType.gauge "g1", RegOp.createOp LensType.counter "g2",
       RegOp.closeOp 0, RegOp.flipOp 1, RegOp.flipOp 2,
       RegOp.createOp LensType.dist "g1"]).lensList) ∧
    (2 ∉ (Registry.runOps
      [RegOp.createOp LensType.gauge "g1", RegOp.createOp LensType.counter "g2",
       RegOp.closeOp 0, RegOp.flipOp 1, RegOp.flipOp 2,
       RegOp.createOp LensType.dist "g1"]).freed) :=
  ⟨(c8_registry_list_consistency _).1 ("g2", 1) (by decide),
   (c8_registry_list_consistency _).2 2 (by decide)⟩

/-- C9 (code bug): the length check of `lens_alloc` is off: a 255-byte name
(which fits in the 256-byte buffer with its NUL) is rejected, while names
of 256 bytes and longer are accepted and silently truncated to 256 bytes; a
254-byte name is accepted verbatim. -/
theorem c9_name_length_check :
    lens_alloc_name (List.replicate 255 'a') = none ∧
    lens_alloc_name (List.replicate 300 'a') =
      some (List.replicate 256 'a') ∧
    lens_alloc_name (List.replicate 254 'a') =
      some (List.replicate 254 'a') := by
  set_option maxRecDepth 40000 in decide

/-- C10 (counterexample): closing the stale cell 0 a second time after a
new cell was registered under the same name returns `true` (not `false`),
enqueues cell 0 on the retire list a *second* time, and deletes the new
cell's map entry while that cell is still on the lens list. -/
theorem c10_double_close_counterexample :
    (doubleCloseState.closeLens 0).1 = true ∧
    (doubleCloseState.closeLens 0).2.defers.1.count 0 = 2 ∧
    lookupKey (doubleCloseState.closeLens 0).2.keys "g1" = none ∧
    1 ∈ (doubleCloseState.closeLens 0).2.lensList := by
  decide

/-- C10 (amended): a second close of an already-closed lens returns `false`
and leaves the registry untouched *provided no cell with the same name has
been registered since* (the name is absent from the map); if a same-name
cell exists, the map delete keys on the name alone, so the second close
spuriously succeeds, re-enqueues the stale cell and removes the new cell's
map entry. -/
theorem c10_close_after_close (s : Registry) (id : ℕ)
    (info : String × LensType) (hc : lookupKey s.cells id = some info)
    (hk : lookupKey s.keys info.1 = none) :
    s.closeLens id = (false, s) := by
  simp [Registry.closeLens, hc, hk]

/-- C10 (witness): the amended statement at the registry obtained by
creating and closing gauge `g1`: the second close of cell 0 returns `false`
and changes nothing. -/
theorem c10_close_after_close_witness :
    ((((Registry.init 0).create "g1" LensType.gauge).2.closeLens 0).2.closeLens
      0) =
      (false, (((Registry.init 0).create "g1" LensType.gauge).2.closeLens 0).2) :=
  c10_close_after_close _ 0 ("g1", LensType.gauge) (by decide) (by decide)

end Optics
